import Mathlib

/-!
Verification of the Lead-Analyzer data cleaning and aggregation pipeline
(`lead_analyzer.py`).  The pandas DataFrame is embedded shallowly: a table is a
list of rows, and every cell is a value of the inductive type `Cell`
(missing/NaN, string, number, or parsed date).  Machine floats are modelled by
exact rationals; the claims under study do not depend on float rounding.
-/

set_option maxRecDepth 8000

namespace LeadAnalyzer

/-! ## Characters and strings (Python semantics, ASCII fragment) -/

/-- Whitespace stripped by Python `str.strip()` (ASCII fragment). -/
def isPySpace (c : Char) : Bool :=
  c == ' ' || c == '\t' || c == '\n' || c == '\r' || c == '\x0b' || c == '\x0c'

/-- Python `str.strip()`. -/
def pyStrip (s : String) : String :=
  String.mk (((s.toList.dropWhile isPySpace).reverse.dropWhile isPySpace).reverse)

def pyTitleGo : List Char → Bool → List Char
  | [], _ => []
  | c :: cs, prevAlpha =>
    if c.isAlpha then
      (if prevAlpha then c.toLower else c.toUpper) :: pyTitleGo cs true
    else
      c :: pyTitleGo cs false

/-- Python `str.title()` (ASCII fragment): the first letter of every maximal
alphabetic run is uppercased, the rest lowercased. -/
def pyTitle (s : String) : String :=
  String.mk (pyTitleGo s.toList false)

/-- Characters allowed in the local part of the email regex
`^[a-zA-Z0-9._%+-]+@[a-zA-Z0-9.-]+\.[a-zA-Z]{2,}$`. -/
def isLocalChar (c : Char) : Bool :=
  c.isAlphanum || c == '.' || c == '_' || c == '%' || c == '+' || c == '-'

/-- Characters allowed in the domain part of the email regex. -/
def isDomainChar (c : Char) : Bool :=
  c.isAlphanum || c == '.' || c == '-'

/-- Matcher for the domain fragment `[a-zA-Z0-9.-]+\.[a-zA-Z]{2,}$`: some
split point gives a nonempty domain-character run, a literal dot, and a
trailing run of at least two ASCII letters. -/
def domainMatch (cs : List Char) : Bool :=
  (List.range cs.length).any fun i =>
    decide (1 ≤ i) && (cs.take i).all isDomainChar &&
      (match cs.drop i with
       | '.' :: t => decide (2 ≤ t.length) && t.all Char.isAlpha
       | _ => false)

/-- The email regex of `clean_data`
(`^[a-zA-Z0-9._%+-]+@[a-zA-Z0-9.-]+\.[a-zA-Z]{2,}$`), written as a direct
backtracking matcher over the character list. -/
def emailMatch (s : String) : Bool :=
  let cs := s.toList
  (List.range cs.length).any fun i =>
    decide (1 ≤ i) && (cs.take i).all isLocalChar &&
      (match cs.drop i with
       | '@' :: dom => domainMatch dom
       | _ => false)

/-! ## Numeric and date parsing -/

def digitsVal (ds : List Char) : ℕ :=
  ds.foldl (fun a c => a * 10 + (c.toNat - 48)) 0

/-- Exponent tail of a float literal, as accepted by `pd.to_numeric`. -/
def parseExpTail (q : ℚ) (t : List Char) : Option ℚ :=
  let sp : Bool × List Char :=
    match t with
    | '+' :: u => (false, u)
    | '-' :: u => (true, u)
    | u => (false, u)
  let ed := sp.2.takeWhile Char.isDigit
  let r := sp.2.dropWhile Char.isDigit
  if ed.isEmpty then none
  else if r.isEmpty then
    some (if sp.1 then q / (10 : ℚ) ^ digitsVal ed else q * (10 : ℚ) ^ digitsVal ed)
  else none

/-- Numeric coercion used by `pd.to_numeric(..., errors='coerce')`: an optional
sign, a decimal mantissa with at least one digit, and an optional exponent.
(The special strings `inf`/`nan` are modelled as non-coercible; they do not
occur in the data this pipeline handles.) -/
def parseNum (s : String) : Option ℚ :=
  let t0 := (pyStrip s).toList
  let sgn : Bool × List Char :=
    match t0 with
    | '+' :: t => (false, t)
    | '-' :: t => (true, t)
    | t => (false, t)
  let d1 := sgn.2.takeWhile Char.isDigit
  let r1 := sgn.2.dropWhile Char.isDigit
  let fr : List Char × List Char :=
    match r1 with
    | '.' :: t => (t.takeWhile Char.isDigit, t.dropWhile Char.isDigit)
    | t => ([], t)
  let d2 := fr.1
  let r2 := fr.2
  if d1.length + d2.length = 0 then none
  else
    let base : ℚ := (digitsVal d1 : ℚ) + (digitsVal d2 : ℚ) / (10 : ℚ) ^ d2.length
    let signed := if sgn.1 then -base else base
    match r2 with
    | [] => some signed
    | 'e' :: t => parseExpTail signed t
    | 'E' :: t => parseExpTail signed t
    | _ => none

def splitOnChar (sep : Char) : List Char → List (List Char)
  | [] => [[]]
  | c :: cs =>
    let r := splitOnChar sep cs
    if c == sep then [] :: r
    else
      match r with
      | [] => [[c]]
      | h :: t => (c :: h) :: t

def isLeap (y : ℕ) : Bool :=
  (y % 4 == 0 && y % 100 != 0) || y % 400 == 0

def daysInMonth (y m : ℕ) : ℕ :=
  if m = 2 then (if isLeap y then 29 else 28)
  else if m = 4 ∨ m = 6 ∨ m = 9 ∨ m = 11 then 30
  else 31

/-- Date parsing used by `pd.to_datetime`, modelled for ISO `YYYY-MM-DD`
strings (the format the pipeline's data uses); a string in any other shape, or
denoting an invalid calendar day, fails to parse. -/
def parseDate (s : String) : Option (ℕ × ℕ × ℕ) :=
  match splitOnChar '-' s.toList with
  | [ys, ms, ds] =>
    if ys.length = 4 ∧ ys.all Char.isDigit ∧
        1 ≤ ms.length ∧ ms.length ≤ 2 ∧ ms.all Char.isDigit ∧
        1 ≤ ds.length ∧ ds.length ≤ 2 ∧ ds.all Char.isDigit then
      let y := digitsVal ys
      let m := digitsVal ms
      let d := digitsVal ds
      if 1 ≤ m ∧ m ≤ 12 ∧ 1 ≤ d ∧ d ≤ daysInMonth y m then some (y, m, d)
      else none
    else none
  | _ => none

/-! ## Cells and rows -/

/-- A pandas cell: missing (NaN/NaT), a string, a number, or a parsed
calendar date. -/
inductive Cell where
  | na : Cell
  | str : String → Cell
  | num : ℚ → Cell
  | date : ℕ → ℕ → ℕ → Cell
deriving DecidableEq

/-- One lead record, with the columns `clean_data` operates on. -/
structure Row where
  lead_id : Cell
  name : Cell
  email : Cell
  phone : Cell
  source : Cell
  status : Cell
  lead_value : Cell
  date_added : Cell
deriving DecidableEq

/-! ## Column operations (`clean_data` steps) -/

/-- `Series.fillna(v)` on one cell. -/
def cellFillna (v : Cell) : Cell → Cell
  | Cell.na => v
  | c => c

/-- `Series.str.strip()` on one cell: non-string entries (including NaN)
become NaN. -/
def cellStrip : Cell → Cell
  | Cell.str s => Cell.str (pyStrip s)
  | _ => Cell.na

/-- `Series.str.title()` on one cell: non-string entries become NaN. -/
def cellTitle : Cell → Cell
  | Cell.str s => Cell.str (pyTitle s)
  | _ => Cell.na

/-- Email validation step: `str.match(pattern, na=False)` marks every
non-matching entry (non-strings match as `False`) and `.loc` overwrites it
with the sentinel `"Invalid email"`. -/
def validateEmail : Cell → Cell
  | Cell.str s => if emailMatch s then Cell.str s else Cell.str "Invalid email"
  | _ => Cell.str "Invalid email"

/-- `pd.to_datetime` on one cell: NaN stays NaT, a parseable string becomes a
date, an unparseable string raises (`none`).  Numeric cells (interpreted by
pandas as epoch offsets) cannot occur in the `date_added` column of a loaded
CSV and are modelled as a parse failure. -/
def parseDateCell : Cell → Option Cell
  | Cell.na => some Cell.na
  | Cell.str s => (parseDate s).map fun t => Cell.date t.1 t.2.1 t.2.2
  | Cell.num _ => none
  | Cell.date y m d => some (Cell.date y m d)

/-- `pd.to_numeric(..., errors='coerce')` on one cell. -/
def toNumericCell : Cell → Cell
  | Cell.na => Cell.na
  | Cell.num q => Cell.num q
  | Cell.str s =>
    match parseNum s with
    | some q => Cell.num q
    | none => Cell.na
  | Cell.date _ _ _ => Cell.na

/-- Steps 1-3 of `clean_data` (lines 43-60): fill missing `phone`, `email`
and `lead_value`; strip and title-case `source` and `status`; strip `name`;
validate `email`.  These in-place column writes all happen before the
`pd.to_datetime` call and are therefore present even when that call raises. -/
def cleanRowPrep (r : Row) : Row :=
  { r with
    phone := cellFillna (Cell.str "Not provided") r.phone,
    email := validateEmail (cellFillna (Cell.str "Not provided") r.email),
    lead_value := cellFillna (Cell.num 0) r.lead_value,
    source := cellTitle (cellStrip r.source),
    status := cellTitle (cellStrip r.status),
    name := cellStrip r.name }

/-- Steps 4-5 of `clean_data` (lines 66-69), applied only when every
`date_added` cell parses: store the parsed date and coerce `lead_value` to a
number, filling coercion failures with `0`. -/
def cleanRowFinish (r : Row) : Row :=
  { r with
    date_added := (parseDateCell r.date_added).getD Cell.na,
    lead_value := cellFillna (Cell.num 0) (toNumericCell r.lead_value) }

/-- The cleaning pipeline as a pure table function: `some` cleaned table when
every date parses, `none` when `pd.to_datetime` raises. -/
def cleanTable (rows : List Row) : Option (List Row) :=
  let prep := rows.map cleanRowPrep
  if prep.all fun r => (parseDateCell r.date_added).isSome then
    some (prep.map cleanRowFinish)
  else none

/-- The session state of a `LeadAnalyzer` object: the raw table `df` and the
cleaned table `clean_df`, each `none` before the corresponding stage ran. -/
structure AnalyzerState where
  df : Option (List Row)
  clean_df : Option (List Row)
deriving DecidableEq

/-- The `clean_data` method.  With no loaded table it prints a message and
returns, leaving the state unchanged.  Otherwise it copies the raw table,
rewrites the columns in place, and parses dates; when some date fails to
parse, `pd.to_datetime` raises *after* `self.clean_df` was already assigned
the copy and mutated by steps 1-3, so the state keeps that half-cleaned
table. -/
def clean_data (st : AnalyzerState) : AnalyzerState :=
  match st.df with
  | none => st
  | some rows =>
    let prep := rows.map cleanRowPrep
    if prep.all fun r => (parseDateCell r.date_added).isSome then
      { st with clean_df := some (prep.map cleanRowFinish) }
    else
      { st with clean_df := some prep }

example : pyStrip " google " = "google" := by decide
example : pyTitle "google ads" = "Google Ads" := by decide
example : emailMatch "a@b.co" = true := by decide
example : emailMatch "bad-email" = false := by decide
example : emailMatch "Not provided" = false := by decide
example : parseNum "150" = some 150 := by with_unfolding_all decide
example : parseNum "1.5e2" = some 150 := by with_unfolding_all decide
example : parseNum "abc" = none := by with_unfolding_all decide
example : parseDate "2024-01-05" = some (2024, 1, 5) := by decide
example : parseDate "not-a-date" = none := by decide
example : parseDate "2023-02-29" = none := by decide

/-! ## Rounding and ordering helpers -/

/-- Floor of a rational, via flooring integer division. -/
def ratFloor (q : ℚ) : ℤ := Int.fdiv q.num q.den

/-- Round-half-to-even on rationals, the rounding used by pandas/numpy
`.round`. -/
def rndHalfEven (q : ℚ) : ℤ :=
  let f := ratFloor q
  let frac := q - (f : ℚ)
  if frac < 1 / 2 then f
  else if (1 : ℚ) / 2 < frac then f + 1
  else if f % 2 = 0 then f else f + 1

/-- Pandas `.round(2)`. -/
def round2 (q : ℚ) : ℚ := (rndHalfEven (q * 100) : ℚ) / 100

/-- Code-point lexicographic comparison on character lists (Python string
ordering, used by `groupby(sort=True)` for its key order). -/
def charListLe : List Char → List Char → Bool
  | [], _ => true
  | _ :: _, [] => false
  | a :: as, b :: bs =>
    if a.toNat < b.toNat then true
    else if b.toNat < a.toNat then false
    else charListLe as bs

/-- Ascending string order for group keys. -/
abbrev strAsc (a b : String) : Prop := charListLe a.toList b.toList = true

/-! ## Aggregator -/

/-- `calculate_conversion_rate` on the cleaned table (lines 80-82):
`(converted / total) * 100 if total > 0 else 0`. -/
def convRate (rows : List Row) : ℚ :=
  let total := rows.length
  let converted := (rows.filter fun r => r.status == Cell.str "Converted").length
  if 0 < total then ((converted : ℚ) / (total : ℚ)) * 100 else 0

/-- Stated from the spec's words, for comparison: `conversionRate()` returns
`(countWhere(status == "Converted") / totalCount) * 100`, or `0` if
`totalCount == 0`. -/
def convRateSpec (rows : List Row) : ℚ :=
  if rows.length = 0 then 0
  else ((rows.filter fun r => r.status == Cell.str "Converted").length : ℚ) /
    (rows.length : ℚ) * 100

/-- Grouping key of `groupby('source')`: pandas drops rows whose key is
missing.  After cleaning, `source` cells are strings or missing. -/
def sourceKey (r : Row) : Option String :=
  match r.source with
  | Cell.str s => some s
  | _ => none

/-- Grouping key of `value_counts()` over `status`. -/
def statusKey (r : Row) : Option String :=
  match r.status with
  | Cell.str s => some s
  | _ => none

/-- Grouping key of `groupby(date_added.dt.date)`. -/
def dateKey (r : Row) : Option (ℕ × ℕ × ℕ) :=
  match r.date_added with
  | Cell.date y m d => some (y, m, d)
  | _ => none

/-- The distinct group keys of a table (pandas drops missing keys). -/
def keysOf {κ : Type} [DecidableEq κ] (key : Row → Option κ) (rows : List Row) :
    List κ :=
  (rows.filterMap key).dedup

/-- The rows of one group. -/
def groupOf {κ : Type} [DecidableEq κ] (key : Row → Option κ) (rows : List Row)
    (k : κ) : List Row :=
  rows.filter fun r => key r == some k

/-- Numeric value of a cell for summation; pandas `sum` skips missing values
(non-numeric cells cannot occur in a fully cleaned `lead_value` column). -/
def cellNumVal : Cell → ℚ
  | Cell.num q => q
  | _ => 0

/-- One line of the `analyze_by_source` result table. -/
structure SourceStat where
  source : String
  total_leads : ℕ
  total_value : ℚ
  conversions : ℕ
  conversion_rate : ℚ
  avg_lead_value : ℚ
deriving DecidableEq

/-- Per-group metrics of `analyze_by_source` (lines 102-118): `total_leads`
is pandas `count` (non-null `lead_id` entries), `total_value` the sum of
`lead_value`, `conversions` the count of `status == 'Converted'`, with the
two derived ratios rounded to two decimals. -/
def mkSourceStat (rows : List Row) (k : String) : SourceStat :=
  let g := groupOf sourceKey rows k
  let tl := (g.filter fun r => !(r.lead_id == Cell.na)).length
  let tv := (g.map fun r => cellNumVal r.lead_value).sum
  let cv := (g.filter fun r => r.status == Cell.str "Converted").length
  { source := k,
    total_leads := tl,
    total_value := tv,
    conversions := cv,
    conversion_rate := round2 ((cv : ℚ) / (tl : ℚ) * 100),
    avg_lead_value := round2 (tv / (tl : ℚ)) }

/-- Descending order on `total_value` (line 121, `sort_values(ascending=False)`). -/
abbrev statGe (a b : SourceStat) : Prop := b.total_value ≤ a.total_value

/-- The `analyze_by_source` result table: groups in ascending key order, then
sorted by `total_value` descending. -/
def sourceStats (rows : List Row) : List SourceStat :=
  List.insertionSort statGe
    ((List.insertionSort strAsc (keysOf sourceKey rows)).map (mkSourceStat rows))

/-- `Series.idxmax` over the `conversion_rate` column (line 127): the label of
the first maximal entry, raising `ValueError` (`none`) on an empty series. -/
def idxmaxConvRate : List SourceStat → Option String
  | [] => none
  | s :: rest =>
    some ((rest.foldl
      (fun best x => if best.conversion_rate < x.conversion_rate then x else best)
      s).source)

/-- The whole `analyze_by_source` call: it computes and sorts the stats, then
evaluates `idxmax` for the best-source message before returning; on an empty
table `idxmax` raises, so the call fails (`none`). -/
def analyzeBySourceRun (rows : List Row) : Option (List SourceStat) :=
  let stats := sourceStats rows
  match idxmaxConvRate stats with
  | none => none
  | some _ => some stats

/-- Descending order on group size, used by `value_counts()`. -/
abbrev pairCountGe (a b : String × ℕ) : Prop := b.2 ≤ a.2

/-- `value_counts()` over `status`: distinct non-missing statuses with their
occurrence counts, in descending count order. -/
def statusPairs (rows : List Row) : List (String × ℕ) :=
  List.insertionSort pairCountGe
    ((keysOf statusKey rows).map fun k => (k, (groupOf statusKey rows k).length))

/-- One line of the `analyze_by_status` result table. -/
structure StatusEntry where
  status : String
  count : ℕ
  percentage : ℚ
deriving DecidableEq

/-- The `analyze_by_status` result (lines 142-148): counts from
`value_counts()`, percentages of the *total* row count (missing-status rows
included in the denominator), rounded to two decimals. -/
def statusCounts (rows : List Row) : List StatusEntry :=
  (statusPairs rows).map fun p =>
    { status := p.1,
      count := p.2,
      percentage := round2 ((p.2 : ℚ) / (rows.length : ℚ) * 100) }

/-! ## Trends -/

/-- Ascending calendar order on (year, month, day) keys. -/
abbrev tripLe (a b : ℕ × ℕ × ℕ) : Prop :=
  a.1 < b.1 ∨ (a.1 = b.1 ∧ (a.2.1 < b.2.1 ∨ (a.2.1 = b.2.1 ∧ a.2.2 ≤ b.2.2)))

/-- One line of the daily trends table. -/
structure DailyStat where
  day : ℕ × ℕ × ℕ
  leads_added : ℕ
  total_value : ℚ
  conversions : ℕ
  conversion_rate : ℚ
deriving DecidableEq

def mkDailyStat (rows : List Row) (k : ℕ × ℕ × ℕ) : DailyStat :=
  let g := groupOf dateKey rows k
  let la := (g.filter fun r => !(r.lead_id == Cell.na)).length
  let tv := (g.map fun r => cellNumVal r.lead_value).sum
  let cv := (g.filter fun r => r.status == Cell.str "Converted").length
  { day := k,
    leads_added := la,
    total_value := tv,
    conversions := cv,
    conversion_rate := round2 ((cv : ℚ) / (la : ℚ) * 100) }

/-- Daily half of `analyze_trends` (lines 164-178): grouped by calendar date
in ascending order, with an added conversion-rate column. -/
def dailyTrends (rows : List Row) : List DailyStat :=
  (List.insertionSort tripLe (keysOf dateKey rows)).map (mkDailyStat rows)

/-- Days since 1970-01-01 of a proleptic-Gregorian calendar date (standard
civil-calendar computation with flooring division). -/
def daysFromCivil (y m d : ℤ) : ℤ :=
  let y2 := if m ≤ 2 then y - 1 else y
  let era := Int.fdiv y2 400
  let yoe := y2 - era * 400
  let mp := Int.emod (m + 9) 12
  let doy := Int.fdiv (153 * mp + 2) 5 + d - 1
  let doe := yoe * 365 + Int.fdiv yoe 4 - Int.fdiv yoe 100 + doy
  era * 146097 + doe - 719468

/-- Grouping key of `to_period('W')`: the index of the Sunday-ending week
containing the date (1970-01-01 was a Thursday, so the offset is 3). -/
def weekKey (r : Row) : Option ℤ :=
  (dateKey r).map fun t => Int.fdiv (daysFromCivil t.1 t.2.1 t.2.2 + 3) 7

/-- One line of the weekly trends table (no conversion-rate column). -/
structure WeeklyStat where
  week : ℤ
  leads_added : ℕ
  total_value : ℚ
  conversions : ℕ
deriving DecidableEq

def mkWeeklyStat (rows : List Row) (k : ℤ) : WeeklyStat :=
  let g := groupOf weekKey rows k
  let la := (g.filter fun r => !(r.lead_id == Cell.na)).length
  let tv := (g.map fun r => cellNumVal r.lead_value).sum
  let cv := (g.filter fun r => r.status == Cell.str "Converted").length
  { week := k, leads_added := la, total_value := tv, conversions := cv }

/-- Ascending week order. -/
abbrev intAsc (a b : ℤ) : Prop := a ≤ b

/-- Weekly half of `analyze_trends` (lines 187-197). -/
def weeklyTrends (rows : List Row) : List WeeklyStat :=
  (List.insertionSort intAsc (keysOf weekKey rows)).map (mkWeeklyStat rows)

/-- The `analyze_trends` result: the daily and the weekly table. -/
def analyzeTrendsRun (rows : List Row) : List DailyStat × List WeeklyStat :=
  (dailyTrends rows, weeklyTrends rows)

/-! ## Method wrappers over the session state

Each analysis method first checks `self.clean_df is None`, prints
"Please clean data first" and returns `None` in that case; none of them
assigns to any attribute, so the session state is never modified by them. -/

def calculate_conversion_rate (st : AnalyzerState) : Option ℚ :=
  match st.clean_df with
  | none => none
  | some rows => some (convRate rows)

def analyze_by_source (st : AnalyzerState) : Option (List SourceStat) :=
  match st.clean_df with
  | none => none
  | some rows => analyzeBySourceRun rows

def analyze_by_status (st : AnalyzerState) : Option (List StatusEntry) :=
  match st.clean_df with
  | none => none
  | some rows => some (statusCounts rows)

/-- Whether a cell can live in a datetime64 column: a parsed date or NaT. -/
def isDtCell : Cell → Bool
  | Cell.date _ _ _ => true
  | Cell.na => true
  | _ => false

/-- Whether the `.dt` accessor works on the `date_added` column.  After a
successful clean the column is datetime64 (every cell a parsed date or NaT)
and `.dt` works; on the half-cleaned table left by a failed clean the column
still holds at least one string, keeping it object-typed, and `.dt` raises
`AttributeError`.  (A half-cleaned table always contains such a cell — a
clean fails only when some cell fails `pd.to_datetime` — so this per-cell
test coincides with the column-dtype test on every reachable table.) -/
def dtReady (rows : List Row) : Bool :=
  rows.all fun r => isDtCell r.date_added

/-- Outcome of an `analyze_trends` call: the precondition guard's message
return, an exception escaping the method, or a computed result. -/
inductive TrendsOutcome where
  | notCleaned : TrendsOutcome
  | dtError : TrendsOutcome
  | ok : List DailyStat × List WeeklyStat → TrendsOutcome
deriving DecidableEq

/-- The `analyze_trends` method: the `clean_df is None` guard prints
"Please clean data first" and returns; otherwise line 165 evaluates
`self.clean_df['date_added'].dt.date`, whose `.dt` accessor raises
`AttributeError` when the column is not datetime-typed (the state a failed
clean leaves behind); only then are the trend tables computed. -/
def analyze_trends (st : AnalyzerState) : TrendsOutcome :=
  match st.clean_df with
  | none => TrendsOutcome.notCleaned
  | some rows =>
    if dtReady rows then TrendsOutcome.ok (analyzeTrendsRun rows)
    else TrendsOutcome.dtError

/-! ## Concrete fixtures -/

/-- First row of the section-8 scenario: `status:"converted"`,
`lead_value:"150"`, `source:" google "`. -/
def scenRaw1 : Row :=
  ⟨Cell.str "L1", Cell.str "Ann", Cell.str "a@b.co", Cell.na,
    Cell.str " google ", Cell.str "converted", Cell.str "150",
    Cell.str "2024-01-05"⟩

/-- Second row of the section-8 scenario: `status:"New"`, missing
`lead_value` (an empty CSV cell loads as missing), `source:"Google"`. -/
def scenRaw2 : Row :=
  ⟨Cell.str "L2", Cell.str "Bob", Cell.str "b@c.org", Cell.str "123",
    Cell.str "Google", Cell.str "New", Cell.na, Cell.str "2024-01-06"⟩

/-- The cleaned form of `scenRaw1`. -/
def scenClean1 : Row :=
  ⟨Cell.str "L1", Cell.str "Ann", Cell.str "a@b.co", Cell.str "Not provided",
    Cell.str "Google", Cell.str "Converted", Cell.num 150, Cell.date 2024 1 5⟩

/-- The cleaned form of `scenRaw2`. -/
def scenClean2 : Row :=
  ⟨Cell.str "L2", Cell.str "Bob", Cell.str "b@c.org", Cell.str "123",
    Cell.str "Google", Cell.str "New", Cell.num 0, Cell.date 2024 1 6⟩

example : cleanTable [scenRaw1, scenRaw2] = some [scenClean1, scenClean2] := by
  with_unfolding_all decide

example : convRate [scenClean1, scenClean2] = 50 := by with_unfolding_all decide

example :
    sourceStats [scenClean1, scenClean2] =
      [{ source := "Google", total_leads := 2, total_value := 150,
         conversions := 1, conversion_rate := 50, avg_lead_value := 75 }] := by
  with_unfolding_all decide

/-! ## Helper lemmas -/

lemma emailMatch_notProvided : emailMatch "Not provided" = false := by decide

lemma emailMatch_invalidEmail : emailMatch "Invalid email" = false := by decide

lemma emailMatch_empty : emailMatch "" = false := by decide

/-- The email-validation step always yields a string cell, and that string is
neither empty nor the "Not provided" sentinel. -/
lemma validateEmail_shape (c : Cell) :
    validateEmail c ≠ Cell.na ∧ validateEmail c ≠ Cell.str "" ∧
      validateEmail c ≠ Cell.str "Not provided" := by
  cases c with
  | str s =>
    by_cases h : emailMatch s = true
    · refine ⟨by simp [validateEmail, h], ?_, ?_⟩
      · simp only [validateEmail, h, if_true, ne_eq, Cell.str.injEq]
        rintro rfl
        rw [emailMatch_empty] at h
        exact Bool.false_ne_true h
      · simp only [validateEmail, h, if_true, ne_eq, Cell.str.injEq]
        rintro rfl
        rw [emailMatch_notProvided] at h
        exact Bool.false_ne_true h
    · simp [validateEmail, h]
  | na => simp [validateEmail]
  | num q => simp [validateEmail]
  | date y m d => simp [validateEmail]

lemma length_filter_split {α : Type} (p : α → Bool) (l : List α) :
    (l.filter p).length + (l.filter fun a => !(p a)).length = l.length := by
  induction l with
  | nil => rfl
  | cons a t ih =>
    cases hp : p a <;> simp [List.filter_cons, hp] <;> omega

/-- Partition property of grouping: when every element carries a key from a
duplicate-free key list, the group sizes add up to the list length. -/
lemma sum_group_lengths {α κ : Type} [DecidableEq κ] (key : α → Option κ) :
    ∀ (ks : List κ) (l : List α), ks.Nodup →
      (∀ a ∈ l, ∃ k ∈ ks, key a = some k) →
      (ks.map fun k => (l.filter fun a => key a == some k).length).sum = l.length := by
  intro ks
  induction ks with
  | nil =>
    intro l _ hcov
    cases l with
    | nil => rfl
    | cons a t =>
      rcases hcov a (List.mem_cons_self a t) with ⟨k, hk, _⟩
      simp at hk
  | cons k ks ih =>
    intro l hnd hcov
    rw [List.map_cons, List.sum_cons]
    have hknot : k ∉ ks := (List.nodup_cons.mp hnd).1
    have hnd2 : ks.Nodup := (List.nodup_cons.mp hnd).2
    have hfix : ∀ k2 ∈ ks,
        (fun k2 => (l.filter fun a => key a == some k2).length) k2 =
        (fun k2 => (((l.filter fun a => !(key a == some k)).filter
          fun a => key a == some k2)).length) k2 := by
      intro k2 hk2
      have hkk : k2 ≠ k := fun h => hknot (h ▸ hk2)
      simp only
      rw [List.filter_filter]
      congr 1
      apply List.filter_congr
      intro a _
      cases h : (key a == some k2) with
      | false => simp
      | true =>
        have hkey : key a = some k2 := by simpa using h
        have h2 : (key a == some k) = false := by
          apply beq_eq_false_iff_ne.mpr
          rw [hkey]
          simpa using hkk
        simp [h, h2]
    rw [List.map_congr_left hfix]
    have hcov2 : ∀ a ∈ (l.filter fun a => !(key a == some k)),
        ∃ k2 ∈ ks, key a = some k2 := by
      intro a ha
      rw [List.mem_filter] at ha
      rcases hcov a ha.1 with ⟨k0, hk0, hkey⟩
      rcases List.mem_cons.mp hk0 with h | h
      · exfalso
        subst h
        rw [hkey] at ha
        simp at ha
      · exact ⟨k0, h, hkey⟩
    rw [ih _ hnd2 hcov2]
    exact length_filter_split _ l

lemma keysOf_cover {κ : Type} [DecidableEq κ] (key : Row → Option κ)
    (rows : List Row) (h : ∀ r ∈ rows, ∃ k, key r = some k) :
    ∀ r ∈ rows, ∃ k ∈ keysOf key rows, key r = some k := by
  intro r hr
  rcases h r hr with ⟨k, hk⟩
  exact ⟨k, List.mem_dedup.mpr (List.mem_filterMap.mpr ⟨r, hr, hk⟩), hk⟩

/-- Group sizes over the table's own key set add up to the table length,
provided every row has a key. -/
lemma sum_group_lengths_keysOf {κ : Type} [DecidableEq κ] (key : Row → Option κ)
    (rows : List Row) (h : ∀ r ∈ rows, ∃ k, key r = some k) :
    ((keysOf key rows).map fun k => (groupOf key rows k).length).sum = rows.length := by
  have := sum_group_lengths key (keysOf key rows) rows (List.nodup_dedup _)
    (keysOf_cover key rows h)
  simpa [groupOf] using this

/-! ## Claim theorems -/

/-- Claim C1: for every cleaned table, `calculate_conversion_rate` returns
(count of rows with status "Converted" divided by total row count) times 100,
returning 0 when the total row count is 0; and on the two-row scenario of
spec section 8 the cleaned table is as described and the rate is 50. -/
theorem conversion_rate_formula_and_scenario :
    (∀ rows : List Row, convRate rows = convRateSpec rows) ∧
    cleanTable [scenRaw1, scenRaw2] = some [scenClean1, scenClean2] ∧
    convRate [scenClean1, scenClean2] = 50 := by
  refine ⟨?_, by with_unfolding_all decide, by with_unfolding_all decide⟩
  intro rows
  by_cases h : rows.length = 0
  · simp [convRate, convRateSpec, h]
  · have hp : 0 < rows.length := Nat.pos_of_ne_zero h
    simp [convRate, convRateSpec, h, hp]

/-- Claim C2: cleaning first replaces a missing email by the sentinel
"Not provided", then the validation step replaces every non-matching email
(including that sentinel) by "Invalid email"; matching emails are preserved
unchanged and no cleaned email equals "Not provided". -/
theorem email_double_sentinel (r : Row) :
    (r.email = Cell.na →
      cellFillna (Cell.str "Not provided") r.email = Cell.str "Not provided" ∧
      (cleanRowPrep r).email = Cell.str "Invalid email") ∧
    (∀ s, r.email = Cell.str s → emailMatch s = true →
      (cleanRowPrep r).email = Cell.str s) ∧
    (∀ s, r.email = Cell.str s → emailMatch s = false →
      (cleanRowPrep r).email = Cell.str "Invalid email") ∧
    (cleanRowPrep r).email ≠ Cell.str "Not provided" := by
  have hrw : (cleanRowPrep r).email =
      validateEmail (cellFillna (Cell.str "Not provided") r.email) := rfl
  refine ⟨?_, ?_, ?_, ?_⟩
  · intro h
    rw [hrw, h]
    exact ⟨rfl, by simp [cellFillna, validateEmail, emailMatch_notProvided]⟩
  · intro s hs hm
    rw [hrw, hs]
    simp [cellFillna, validateEmail, hm]
  · intro s hs hm
    rw [hrw, hs]
    simp [cellFillna, validateEmail, hm]
  · rw [hrw]
    exact (validateEmail_shape _).2.2

def rowNoEmail : Row :=
  ⟨Cell.str "W1", Cell.str "Cam", Cell.na, Cell.na, Cell.na, Cell.na, Cell.na,
    Cell.str "2024-03-01"⟩

def rowGoodEmail : Row :=
  ⟨Cell.str "W2", Cell.str "Cam", Cell.str "a@b.co", Cell.na, Cell.na, Cell.na,
    Cell.na, Cell.str "2024-03-01"⟩

def rowBadEmail : Row :=
  ⟨Cell.str "W3", Cell.str "Cam", Cell.str "bad-email", Cell.na, Cell.na,
    Cell.na, Cell.na, Cell.str "2024-03-01"⟩

/-- Witness for C2 at the scenario emails of spec section 8. -/
theorem email_double_sentinel_witness :
    (cleanRowPrep rowNoEmail).email = Cell.str "Invalid email" ∧
    (cleanRowPrep rowGoodEmail).email = Cell.str "a@b.co" ∧
    (cleanRowPrep rowBadEmail).email = Cell.str "Invalid email" :=
  ⟨((email_double_sentinel rowNoEmail).1 rfl).2,
   (email_double_sentinel rowGoodEmail).2.1 "a@b.co" rfl (by decide),
   (email_double_sentinel rowBadEmail).2.2.1 "bad-email" rfl (by decide)⟩

/-- Claim C3 (behaviour at the failing input): on the empty cleaned table the
conversion rate is 0, `analyze_by_status` and `analyze_trends` return empty
tables, but `analyze_by_source` fails (models the `ValueError` raised by
`Series.idxmax` on the empty `conversion_rate` series at line 127), contrary
to the claim that every aggregation returns an empty result without error. -/
theorem empty_table_aggregations :
    cleanTable [] = some [] ∧
    convRate [] = 0 ∧
    statusCounts [] = [] ∧
    analyzeTrendsRun [] = ([], []) ∧
    analyzeBySourceRun [] = none := by
  refine ⟨rfl, by decide, rfl, rfl, rfl⟩

def badDateRow : Row :=
  ⟨Cell.str "L9", Cell.str "Pat", Cell.str "p@q.io", Cell.na, Cell.str "Ads",
    Cell.str "New", Cell.str "5", Cell.str "not-a-date"⟩

def priorCleanRow : Row :=
  ⟨Cell.str "L8", Cell.str "Old", Cell.str "Invalid email",
    Cell.str "Not provided", Cell.str "Web", Cell.str "New", Cell.num 1,
    Cell.date 2024 1 1⟩

def c4State : AnalyzerState := ⟨some [badDateRow], some [priorCleanRow]⟩

/-- Counterexample to claim C4: cleaning a table whose `date_added` fails to
parse *does* leave a partial result behind — `clean_df` is replaced by the
half-cleaned copy (steps 1-3 applied, date unparsed), so the previously held
cleaned table is discarded. -/
theorem clean_failure_leaves_partial_state :
    (clean_data c4State).clean_df ≠ none ∧
    (clean_data c4State).clean_df ≠ c4State.clean_df ∧
    (clean_data c4State).clean_df = some [cleanRowPrep badDateRow] := by
  with_unfolding_all decide

/-- Claim C4 as amended: when some `date_added` fails to parse the cleaning
call fails before producing a fully cleaned table (dates unparsed,
`lead_value` uncoerced), but `clean_df` is left holding the partially
rewritten copy, discarding any previously held cleaned table; the raw table
is unchanged. -/
theorem clean_failure_state (st : AnalyzerState) (rows : List Row)
    (hdf : st.df = some rows)
    (hbad : ((rows.map cleanRowPrep).all
      fun r => (parseDateCell r.date_added).isSome) = false) :
    clean_data st = { df := st.df, clean_df := some (rows.map cleanRowPrep) } := by
  simp [clean_data, hdf, hbad]

/-- Witness for the amended C4 at a concrete unparseable date. -/
theorem clean_failure_state_witness :
    clean_data ⟨some [badDateRow], none⟩ =
      ⟨some [badDateRow], some [cleanRowPrep badDateRow]⟩ := by
  have h := clean_failure_state ⟨some [badDateRow], none⟩ [badDateRow] rfl
    (by decide)
  simpa using h

def rawNoSource : Row :=
  ⟨Cell.str "L7", Cell.str "Nia", Cell.str "n@m.co", Cell.na, Cell.na, Cell.na,
    Cell.str "3", Cell.str "2024-02-02"⟩

def noSourceRow : Row :=
  ⟨Cell.str "L7", Cell.str "Nia", Cell.str "n@m.co", Cell.str "Not provided",
    Cell.na, Cell.na, Cell.num 3, Cell.date 2024 2 2⟩

/-- Counterexample to claim C5: a cleaned table can contain a row whose
`source`/`status` stayed missing (cleaning leaves them missing), and the
grouped aggregations drop such a row, so the group totals do not add up to
the table's row count. -/
theorem group_totals_counterexample :
    cleanTable [rawNoSource] = some [noSourceRow] ∧
    ¬(((sourceStats [noSourceRow]).map SourceStat.total_leads).sum =
        ([noSourceRow] : List Row).length ∧
      ((statusCounts [noSourceRow]).map StatusEntry.count).sum =
        ([noSourceRow] : List Row).length) := by
  with_unfolding_all decide

/-- Claim C5 as amended: for every non-empty cleaned table in which every
row has a (string) source, a (string) status and a non-missing `lead_id`,
the `total_leads` of `analyze_by_source` add up to the row count, and so do
the counts of `analyze_by_status`. -/
theorem group_totals_sum (rows : List Row) (hne : rows ≠ [])
    (hsrc : ∀ r ∈ rows, ∃ s, r.source = Cell.str s)
    (hst : ∀ r ∈ rows, ∃ s, r.status = Cell.str s)
    (hid : ∀ r ∈ rows, r.lead_id ≠ Cell.na) :
    ((sourceStats rows).map SourceStat.total_leads).sum = rows.length ∧
    ((statusCounts rows).map StatusEntry.count).sum = rows.length := by
  constructor
  · have p1 : List.Perm ((sourceStats rows).map SourceStat.total_leads)
        (((List.insertionSort strAsc (keysOf sourceKey rows)).map
          (mkSourceStat rows)).map SourceStat.total_leads) :=
      (List.perm_insertionSort _ _).map _
    rw [p1.sum_eq, List.map_map]
    have p2 : List.Perm ((List.insertionSort strAsc (keysOf sourceKey rows)).map
          (SourceStat.total_leads ∘ mkSourceStat rows))
        ((keysOf sourceKey rows).map (SourceStat.total_leads ∘ mkSourceStat rows)) :=
      (List.perm_insertionSort _ _).map _
    rw [p2.sum_eq]
    have hpt : ∀ k ∈ keysOf sourceKey rows,
        (SourceStat.total_leads ∘ mkSourceStat rows) k =
        (fun k => (groupOf sourceKey rows k).length) k := by
      intro k _
      simp only [Function.comp_apply, mkSourceStat]
      apply congrArg List.length
      apply List.filter_eq_self.mpr
      intro r hrg
      have hr : r ∈ rows := (List.mem_filter.mp hrg).1
      rw [beq_eq_false_iff_ne.mpr (hid r hr)]
      rfl
    rw [List.map_congr_left hpt]
    apply sum_group_lengths_keysOf
    intro r hr
    rcases hsrc r hr with ⟨s, hs⟩
    exact ⟨s, by simp [sourceKey, hs]⟩
  · have h1 : (statusCounts rows).map StatusEntry.count =
        (statusPairs rows).map Prod.snd := by
      rw [statusCounts, List.map_map]
      exact List.map_congr_left fun p _ => rfl
    rw [h1]
    have p1 : List.Perm ((statusPairs rows).map Prod.snd)
        (((keysOf statusKey rows).map fun k =>
          (k, (groupOf statusKey rows k).length)).map Prod.snd) :=
      (List.perm_insertionSort _ _).map _
    rw [p1.sum_eq, List.map_map]
    have h2 : (keysOf statusKey rows).map
          (Prod.snd ∘ fun k => (k, (groupOf statusKey rows k).length)) =
        (keysOf statusKey rows).map fun k => (groupOf statusKey rows k).length :=
      List.map_congr_left fun k _ => rfl
    rw [h2]
    apply sum_group_lengths_keysOf
    intro r hr
    rcases hst r hr with ⟨s, hs⟩
    exact ⟨s, by simp [statusKey, hs]⟩

/-- Witness for the amended C5 at the cleaned two-row scenario table. -/
theorem group_totals_sum_witness :
    ((sourceStats [scenClean1, scenClean2]).map SourceStat.total_leads).sum = 2 ∧
    ((statusCounts [scenClean1, scenClean2]).map StatusEntry.count).sum = 2 := by
  have h := group_totals_sum [scenClean1, scenClean2] (by decide)
    (by
      intro r hr
      rcases List.mem_cons.mp hr with h | h
      · exact ⟨"Google", by rw [h]; rfl⟩
      · rcases List.mem_cons.mp h with h | h
        · exact ⟨"Google", by rw [h]; rfl⟩
        · simp at h)
    (by
      intro r hr
      rcases List.mem_cons.mp hr with h | h
      · exact ⟨"Converted", by rw [h]; rfl⟩
      · rcases List.mem_cons.mp h with h | h
        · exact ⟨"New", by rw [h]; rfl⟩
        · simp at h)
    (by
      intro r hr
      rcases List.mem_cons.mp hr with h | h
      · rw [h]; decide
      · rcases List.mem_cons.mp h with h | h
        · rw [h]; decide
        · simp at h)
  simpa using h

instance : IsTotal SourceStat statGe :=
  ⟨fun a b => le_total b.total_value a.total_value⟩

instance : IsTrans SourceStat statGe :=
  ⟨fun _ _ _ h1 h2 => le_trans h2 h1⟩

instance : IsTotal (String × ℕ) pairCountGe :=
  ⟨fun a b => le_total b.2 a.2⟩

instance : IsTrans (String × ℕ) pairCountGe :=
  ⟨fun _ _ _ h1 h2 => le_trans h2 h1⟩

/-- Claim C6: `analyze_by_source` results are ordered by `total_value`
descending, and `analyze_by_status` results by count descending. -/
theorem results_sorted (rows : List Row) :
    (sourceStats rows).Sorted statGe ∧
    (statusCounts rows).Sorted fun a b => b.count ≤ a.count := by
  constructor
  · exact List.sorted_insertionSort statGe _
  · have h := List.sorted_insertionSort pairCountGe
      ((keysOf statusKey rows).map fun k => (k, (groupOf statusKey rows k).length))
    exact List.Pairwise.map _ (fun a b hab => hab) h

/-- Claim C7: cleaning never removes rows — a successful clean maps each raw
row to its rewritten form, preserving the row count — and in the cleaned
table `phone` and `email` are never missing or empty.  (The hypothesis on
raw phones reflects the loader: `pd.read_csv` turns empty cells into
missing values, so a loaded cell is never the empty string.) -/
theorem cleaning_preserves_rows (rows cleaned : List Row)
    (h : cleanTable rows = some cleaned)
    (hp : ∀ r ∈ rows, r.phone ≠ Cell.str "") :
    cleaned = rows.map (fun r => cleanRowFinish (cleanRowPrep r)) ∧
    cleaned.length = rows.length ∧
    ∀ r2 ∈ cleaned,
      r2.phone ≠ Cell.na ∧ r2.phone ≠ Cell.str "" ∧
      r2.email ≠ Cell.na ∧ r2.email ≠ Cell.str "" := by
  simp only [cleanTable] at h
  split at h
  case isFalse => exact absurd h (by simp)
  case isTrue hall =>
    have hc : cleaned = rows.map fun r => cleanRowFinish (cleanRowPrep r) := by
      have := (Option.some.injEq _ _).mp h
      rw [← this, List.map_map]
      rfl
    refine ⟨hc, by rw [hc]; simp, ?_⟩
    intro r2 hr2
    rw [hc] at hr2
    rcases List.mem_map.mp hr2 with ⟨r, hr, hre⟩
    have hrphone : r2.phone = cellFillna (Cell.str "Not provided") r.phone := by
      rw [← hre]; rfl
    have hremail : r2.email =
        validateEmail (cellFillna (Cell.str "Not provided") r.email) := by
      rw [← hre]; rfl
    refine ⟨?_, ?_, ?_, ?_⟩
    · rw [hrphone]
      cases r.phone <;> simp [cellFillna]
    · rw [hrphone]
      cases hph : r.phone with
      | na => simp [cellFillna]
      | str s =>
        have := hp r hr
        rw [hph] at this
        simpa [cellFillna] using this
      | num q => simp [cellFillna]
      | date y m d => simp [cellFillna]
    · rw [hremail]
      exact (validateEmail_shape _).1
    · rw [hremail]
      exact (validateEmail_shape _).2.1

def w7raw : Row :=
  ⟨Cell.str "9", Cell.str " Al ", Cell.na, Cell.na, Cell.str "tv",
    Cell.str "won", Cell.na, Cell.str "2023-12-31"⟩

def w7clean : Row :=
  ⟨Cell.str "9", Cell.str "Al", Cell.str "Invalid email",
    Cell.str "Not provided", Cell.str "Tv", Cell.str "Won", Cell.num 0,
    Cell.date 2023 12 31⟩

/-- Witness for C7 on a one-row table with missing phone and email. -/
theorem cleaning_preserves_rows_witness :
    ([w7clean] : List Row).length = ([w7raw] : List Row).length ∧
    w7clean.phone ≠ Cell.na ∧ w7clean.email ≠ Cell.na := by
  have hct : cleanTable [w7raw] = some [w7clean] := by with_unfolding_all decide
  have h := cleaning_preserves_rows [w7raw] [w7clean] hct (by decide)
  have hm := h.2.2 w7clean (by simp)
  exact ⟨h.2.1, hm.1, hm.2.2.1⟩

/-- Claim C8: cleaning operates on an independent copy of the raw table —
after any `clean_data` call the raw table is unchanged, and the resulting
cleaned table depends only on the current raw table (any previously held
cleaned table is discarded and has no influence). -/
theorem clean_data_independent_copy (st : AnalyzerState) :
    (clean_data st).df = st.df ∧
    ∀ rows, st.df = some rows →
      (clean_data st).clean_df = (clean_data ⟨some rows, none⟩).clean_df := by
  constructor
  · cases hdf : st.df with
    | none => simp [clean_data, hdf]
    | some rows =>
      simp only [clean_data, hdf]
      split <;> rfl
  · intro rows hdf
    by_cases hc : ((rows.map cleanRowPrep).all
        fun r => (parseDateCell r.date_added).isSome) = true <;>
      simp [clean_data, hdf, hc]

def c8State : AnalyzerState := ⟨some [scenRaw1], some [priorCleanRow]⟩

/-- Witness for C8 at a state that already holds a cleaned table. -/
theorem clean_data_independent_copy_witness :
    (clean_data c8State).df = some [scenRaw1] ∧
    (clean_data c8State).clean_df =
      (clean_data ⟨some [scenRaw1], none⟩).clean_df := by
  have h := clean_data_independent_copy c8State
  exact ⟨h.1, h.2 [scenRaw1] rfl⟩

/-- Counterexample to claim C9: after a *failed* clean — so still before any
successful clean — `clean_df` holds the half-cleaned table, the
"Please clean data first" guard does not fire, and `analyze_trends` raises
`AttributeError` from the `.dt` accessor on the still-string `date_added`
column instead of failing with the recoverable message. -/
theorem precondition_guards_counterexample :
    (clean_data ⟨some [badDateRow], none⟩).clean_df ≠ none ∧
    analyze_trends (clean_data ⟨some [badDateRow], none⟩) =
      TrendsOutcome.dtError ∧
    analyze_trends (clean_data ⟨some [badDateRow], none⟩) ≠
      TrendsOutcome.notCleaned := by
  with_unfolding_all decide

/-- Claim C9 as amended: invoking the cleaner before a successful load fails
with a clear message and leaves the state unchanged, and every analysis
invoked while `clean_df` is unset (no cleaning call was made, or the session
is fresh) fails with the "please clean first" message rather than an
exception, modifying no state; but the guard tests only `clean_df is None`,
so after a failed cleaning call the half-cleaned table it left behind is
analysed instead — in particular `analyze_trends` then raises
`AttributeError` from the `.dt` accessor rather than giving a recoverable
message. -/
theorem precondition_guards_amended (st : AnalyzerState) :
    (st.df = none → clean_data st = st) ∧
    (st.clean_df = none →
      calculate_conversion_rate st = none ∧
      analyze_by_source st = none ∧
      analyze_by_status st = none ∧
      analyze_trends st = TrendsOutcome.notCleaned) ∧
    (∀ rows, st.df = some rows →
      ((rows.map cleanRowPrep).all
        fun r => (parseDateCell r.date_added).isSome) = false →
      analyze_trends (clean_data st) = TrendsOutcome.dtError) := by
  refine ⟨?_, ?_, ?_⟩
  · intro h
    simp [clean_data, h]
  · intro h
    simp [calculate_conversion_rate, analyze_by_source, analyze_by_status,
      analyze_trends, h]
  · intro rows hdf hbad
    have hdt : dtReady (rows.map cleanRowPrep) = false := by
      cases h : dtReady (rows.map cleanRowPrep) with
      | false => rfl
      | true =>
        exfalso
        rw [dtReady, List.all_eq_true] at h
        have hall : ((rows.map cleanRowPrep).all
            fun r => (parseDateCell r.date_added).isSome) = true := by
          rw [List.all_eq_true]
          intro r hr
          have h2 := h r hr
          cases hdr : r.date_added with
          | na => rfl
          | date y m d => rfl
          | str s =>
            rw [hdr] at h2
            simp [isDtCell] at h2
          | num q =>
            rw [hdr] at h2
            simp [isDtCell] at h2
        rw [hall] at hbad
        simp at hbad
    simp [clean_data, hdf, hbad, analyze_trends, hdt]

/-- Witness for the amended C9: the fresh session is guarded, and the state
left by a failed clean is analysed without the guard firing. -/
theorem precondition_guards_amended_witness :
    clean_data ⟨none, none⟩ = ⟨none, none⟩ ∧
    calculate_conversion_rate ⟨none, none⟩ = none ∧
    analyze_trends ⟨none, none⟩ = TrendsOutcome.notCleaned ∧
    analyze_trends (clean_data ⟨some [badDateRow], none⟩) =
      TrendsOutcome.dtError := by
  have h1 := precondition_guards_amended ⟨none, none⟩
  have h2 := precondition_guards_amended ⟨some [badDateRow], none⟩
  exact ⟨h1.1 rfl, (h1.2.1 rfl).1, (h1.2.1 rfl).2.2.2,
    h2.2.2 [badDateRow] rfl (by decide)⟩

/-- Claim C10: cleaning fills missing values only for `phone`, `email` and
`lead_value`; a missing `source`, `status` (or `name`) stays missing and
`lead_id` is untouched; and a row with missing `source` (resp. `status`)
contributes to no group of the per-source (resp. per-status) aggregation. -/
theorem missing_fields_handling (r : Row) (rows : List Row) :
    ((cleanRowPrep r).lead_id = r.lead_id) ∧
    (r.source = Cell.na → (cleanRowPrep r).source = Cell.na) ∧
    (r.status = Cell.na → (cleanRowPrep r).status = Cell.na) ∧
    (r.name = Cell.na → (cleanRowPrep r).name = Cell.na) ∧
    (r.phone = Cell.na → (cleanRowPrep r).phone = Cell.str "Not provided") ∧
    (r.email = Cell.na → (cleanRowPrep r).email = Cell.str "Invalid email") ∧
    (r.lead_value = Cell.na →
      (cleanRowFinish (cleanRowPrep r)).lead_value = Cell.num 0) ∧
    (r.source = Cell.na → sourceStats (r :: rows) = sourceStats rows) ∧
    (r.status = Cell.na → statusPairs (r :: rows) = statusPairs rows) := by
  refine ⟨rfl, ?_, ?_, ?_, ?_, ?_, ?_, ?_, ?_⟩
  · intro h
    simp [cleanRowPrep, h, cellStrip, cellTitle]
  · intro h
    simp [cleanRowPrep, h, cellStrip, cellTitle]
  · intro h
    simp [cleanRowPrep, h, cellStrip]
  · intro h
    simp [cleanRowPrep, h, cellFillna]
  · intro h
    simp [cleanRowPrep, h, cellFillna, validateEmail, emailMatch_notProvided]
  · intro h
    simp [cleanRowFinish, cleanRowPrep, h, cellFillna, toNumericCell]
  · intro h
    have hk : sourceKey r = none := by simp [sourceKey, h]
    have hg : ∀ k, groupOf sourceKey (r :: rows) k = groupOf sourceKey rows k := by
      intro k
      simp [groupOf, List.filter_cons, hk]
    have hm : mkSourceStat (r :: rows) = mkSourceStat rows := by
      funext k
      simp [mkSourceStat, hg]
    simp [sourceStats, keysOf, List.filterMap_cons, hk, hm]
  · intro h
    have hk : statusKey r = none := by simp [statusKey, h]
    have hg : ∀ k, groupOf statusKey (r :: rows) k = groupOf statusKey rows k := by
      intro k
      simp [groupOf, List.filter_cons, hk]
    simp [statusPairs, keysOf, List.filterMap_cons, hk, hg]

def naRow : Row :=
  ⟨Cell.na, Cell.na, Cell.na, Cell.na, Cell.na, Cell.na, Cell.na, Cell.na⟩

/-- Witness for C10 at the all-missing row. -/
theorem missing_fields_handling_witness :
    (cleanRowPrep naRow).source = Cell.na ∧
    (cleanRowPrep naRow).phone = Cell.str "Not provided" ∧
    sourceStats [naRow] = sourceStats [] := by
  obtain ⟨h1, h2, h3, h4, h5, h6, h7, h8, h9⟩ := missing_fields_handling naRow []
  exact ⟨h2 rfl, h5 rfl, h8 rfl⟩

end LeadAnalyzer
